import Mathlib

/-!
Verification of the attachment-decoding / response-extraction core of
`app/llm_generator.py`.

The embedding models Python strings as `List Char` and Python byte
strings as `List Nat`.  Exceptions are modelled with `Option`/`Except`:
a function that can raise returns `none` (or `.error`) in exactly the
situations where the Python code raises (respectively catches) an
exception.  File-system effects are modelled explicitly: writes are
returned as a list of `(path, bytes)` pairs, and reads are an oracle
`List Char → Except (List Char) (List Char)` standing for
`open(path, "r", errors="ignore")` followed by reading (the error case
carries the exception's message text).
-/

namespace LlmGen

/-- The backtick character (written via its code point). -/
def bt : Char := Char.ofNat 96

/-- The triple-backtick delimiter used by the fenced-block protocol. -/
def delim3 : List Char := [bt, bt, bt]

/-- Python `str.strip` whitespace test (ASCII whitespace as stripped by CPython). -/
def isPySpace (c : Char) : Bool :=
  c == ' ' || c == '\t' || c == '\n' || c == '\r' || c == Char.ofNat 11 || c == Char.ofNat 12

/-- Python `str.strip()`: drop leading and trailing whitespace. -/
def pyStrip (l : List Char) : List Char :=
  ((l.dropWhile isPySpace).reverse.dropWhile isPySpace).reverse

/-- Python `"\n".join(xs)` over a list of strings. -/
def joinNL : List (List Char) → List Char
  | [] => []
  | [x] => x
  | x :: y :: xs => x ++ '\n' :: joinNL (y :: xs)

/-- Whether the text contains the triple-backtick delimiter (scan of every position). -/
def containsTriple : List Char → Bool
  | c :: d :: e :: rest => (c == bt && d == bt && e == bt) || containsTriple (d :: e :: rest)
  | _ => false

/-- Python `text.split("```")`: split on the triple-backtick delimiter,
left to right, non-overlapping; always returns at least one segment. -/
def split3 : List Char → List (List Char)
  | [] => [[]]
  | [c] => [[c]]
  | [c, d] => [[c, d]]
  | c :: d :: e :: rest =>
    if c = bt ∧ d = bt ∧ e = bt then
      [] :: split3 rest
    else
      match split3 (d :: e :: rest) with
      | [] => [[c]]
      | s :: ss => (c :: s) :: ss

/-- Python `text.find(pat)`: index of the first occurrence of `pat`, as an `Option`
(`none` models Python's `-1`). -/
def findSub (l pat : List Char) : Option Nat :=
  ((List.range (l.length + 1)).filter fun i => pat.isPrefixOf (l.drop i)).head?

/-- Python `text.rfind(pat)`: index of the last occurrence of `pat`. -/
def rfindSub (l pat : List Char) : Option Nat :=
  ((List.range (l.length + 1)).filter fun i => pat.isPrefixOf (l.drop i)).getLast?

/-- Python `text.find(ch, start)`: index of the first occurrence of the character
`c` at position `start` or later. -/
def findCharFrom (l : List Char) (c : Char) (start : Nat) : Option Nat :=
  ((List.range l.length).filter fun i => decide (start ≤ i) && (l[i]? == some c)).head?

/-- Python slice `text[a:b]` for `0 ≤ a`, `0 ≤ b`. -/
def pySlice (l : List Char) (a b : Nat) : List Char :=
  (l.take b).drop a

/-- Python `str.replace(pat, rep)` with an explicit fuel argument (one unit of
fuel per character consumed); left-to-right, non-overlapping. -/
def pyReplaceF (rep pat : List Char) : Nat → List Char → List Char
  | 0, l => l
  | _ + 1, [] => []
  | fuel + 1, c :: l =>
    if pat ≠ [] ∧ pat.isPrefixOf (c :: l) then
      rep ++ pyReplaceF rep pat fuel (l.drop (pat.length - 1))
    else
      c :: pyReplaceF rep pat fuel l

/-- Python `l.replace(pat, rep)` (each step consumes at least one character,
so `l.length` fuel is enough). -/
def pyReplace (l pat rep : List Char) : List Char :=
  pyReplaceF rep pat l.length l

/-- Lines of a text as produced by iterating over a Python text file: each line
keeps its trailing newline; a final fragment without a newline is its own line. -/
def pyLines : List Char → List (List Char)
  | [] => []
  | c :: rest =>
    if c = '\n' then ['\n'] :: pyLines rest
    else
      match pyLines rest with
      | [] => [[c]]
      | ln :: lns => (c :: ln) :: lns

/-- Python `text.startswith(pat)`. -/
def pyStartsWith (l pat : List Char) : Bool := pat.isPrefixOf l

/-- Python `text.endswith(pat)`. -/
def pyEndsWith (l pat : List Char) : Bool := pat.isSuffixOf l

/-- Value of a character in the standard base64 alphabet. -/
def b64Val (c : Char) : Option Nat :=
  if 'A' ≤ c ∧ c ≤ 'Z' then some (c.toNat - 65)
  else if 'a' ≤ c ∧ c ≤ 'z' then some (c.toNat - 97 + 26)
  else if '0' ≤ c ∧ c ≤ '9' then some (c.toNat - 48 + 52)
  else if c = '+' then some 62
  else if c = '/' then some 63
  else none

/-- Characters kept by the decoder (alphabet characters and padding); everything
else is discarded before decoding, as `binascii.a2b_base64` does. -/
def isB64Keep (c : Char) : Bool := (b64Val c).isSome || c == '='

/-- Decode a filtered base64 string, four characters at a time; `none` models
`binascii.Error` (incorrect padding / malformed input). -/
def b64Groups : List Char → Option (List Nat)
  | [] => some []
  | a :: b :: c :: d :: rest =>
    match b64Val a, b64Val b with
    | some va, some vb =>
      if c = '=' then
        if d = '=' ∧ rest = [] then some [va * 4 + vb / 16] else none
      else
        match b64Val c with
        | some vc =>
          if d = '=' then
            if rest = [] then some [va * 4 + vb / 16, (vb % 16) * 16 + vc / 4] else none
          else
            match b64Val d with
            | some vd =>
              (b64Groups rest).map
                (fun bs => (va * 4 + vb / 16) :: ((vb % 16) * 16 + vc / 4) :: ((vc % 4) * 64 + vd) :: bs)
            | none => none
        | none => none
    | _, _ => none
  | _ => none

/-- Python `base64.b64decode`: discard non-alphabet characters, then decode;
`none` models a raised `binascii.Error`. -/
def b64decode (l : List Char) : Option (List Nat) :=
  b64Groups (l.filter isB64Keep)

/-- Python `header.split(";")[0]`: the part of the string before the first
semicolon (the whole string when there is none). -/
def takeUntilSemi (l : List Char) : List Char :=
  l.takeWhile fun c => !(c == ';')

/-- Python `url.split(",", 1)` when used for unpacking into two names: `none`
models the `ValueError` raised when there is no comma. -/
def splitFirst (sep : Char) : List Char → Option (List Char × List Char)
  | [] => none
  | c :: rest =>
    if c = sep then some ([], rest)
    else (splitFirst sep rest).map fun p => (c :: p.1, p.2)

/-- Source: `_strip_code_block` (llm_generator.py lines 74–89).  Returns `none`
exactly when the Python code raises `IndexError`, i.e. when `text[start]` is
evaluated with `start == len(text)` (the first `` ``` `` ends the text). -/
def strip_code_block (t : List Char) : Option (List Char) :=
  match findSub t delim3 with
  | none => some (pyStrip t)
  | some i =>
    let start := i + 3
    match t[start]? with
    | none => none
    | some c =>
      let start2 :=
        if c = '\n' then start
        else
          match findCharFrom t '\n' start with
          | some j => j + 1
          | none => 0
      match rfindSub t delim3 with
      | none => some (pyStrip t)
      | some e => if start2 < e then some (pyStrip (pySlice t start2 e)) else some (pyStrip t)

/-- An attachment input `{name, url}`; `name` is `none` when the key is missing
or null. -/
structure AttIn where
  name : Option (List Char)
  url : List Char
deriving DecidableEq

/-- A decoded-attachment record `{name, path, mime, size}`. -/
structure DecodedAtt where
  name : List Char
  path : List Char
  mime : List Char
  size : Nat
deriving DecidableEq

/-- The scratch directory for decoded attachments. -/
def TMP_DIR : List Char := "/tmp/llm_attachments".data

/-- Python `Path(dir) / name` rendered as a string (an absolute `name`
replaces the directory part, as `pathlib` does). -/
def pathJoin (dir nm : List Char) : List Char :=
  if nm.head? = some '/' then nm else dir ++ '/' :: nm

/-- Python `att.get("name") or "attachment"`. -/
def attName (a : AttIn) : List Char :=
  match a.name with
  | none => "attachment".data
  | some [] => "attachment".data
  | some s => s

/-- Processing of one attachment inside `decode_attachments`: `none` when the
attachment is skipped (non-`data:` url) or when an exception was caught
(missing comma, bad base64, failed file write); otherwise the record together
with the `(path, bytes)` write it performs.  `writeOk` is the file-system
oracle saying whether writing a given path succeeds. -/
def decodeAtt (writeOk : List Char → Bool) (a : AttIn) : Option (DecodedAtt × (List Char × List Nat)) :=
  if pyStartsWith a.url ("data:".data) then
    match splitFirst ',' a.url with
    | none => none
    | some (header, b64data) =>
      let mime := pyReplace (takeUntilSemi header) ("data:".data) []
      match b64decode b64data with
      | none => none
      | some data =>
        let nm := attName a
        let path := pathJoin TMP_DIR nm
        if writeOk path then some (⟨nm, path, mime, data.length⟩, (path, data)) else none
  else none

/-- Source: `decode_attachments` (lines 19–46).  Returns the saved records in
input order together with the list of file writes in the order performed. -/
def decode_attachments (writeOk : List Char → Bool) : List AttIn → List DecodedAtt × List (List Char × List Nat)
  | [] => ([], [])
  | a :: rest =>
    let r := decode_attachments writeOk rest
    match decodeAtt writeOk a with
    | none => r
    | some (rec, w) => (rec :: r.1, w :: r.2)

/-- Contents a path holds after a list of writes (the last write to the path wins). -/
def finalContents (writes : List (List Char × List Nat)) (path : List Char) : Option (List Nat) :=
  ((writes.filter fun w => w.1 = path).map fun w => w.2).getLast?

/-- Whether an attachment gets a textual preview: its mime type starts with
`text` or its name ends in `.md`, `.txt`, `.json` or `.csv`. -/
def qualifies (s : DecodedAtt) : Bool :=
  pyStartsWith s.mime ("text".data) || pyEndsWith s.name (".md".data) ||
    pyEndsWith s.name (".txt".data) || pyEndsWith s.name (".json".data) ||
    pyEndsWith s.name (".csv".data)

/-- The summary line for one attachment (loop body of
`summarize_attachment_meta`, lines 54–71).  `read` is the oracle for opening
and reading the file as text with undecodable bytes ignored; its error value is
the exception message.  A `.csv` file with fewer than three lines makes
`next(f)` raise `StopIteration`, which is caught like a read error and whose
message renders as the empty string. -/
def summaryLine (read : List Char → Except (List Char) (List Char)) (s : DecodedAtt) : List Char :=
  let head := "- ".data ++ s.name ++ " (".data ++ s.mime ++ "): ".data
  if qualifies s then
    match read s.path with
    | .error e => head ++ "(could not read preview: ".data ++ e ++ ")".data
    | .ok content =>
      if pyEndsWith s.name (".csv".data) then
        let lns := pyLines content
        if 3 ≤ lns.length then
          head ++ "preview: ".data ++ joinNL ((lns.take 3).map pyStrip)
        else
          head ++ "(could not read preview: ".data ++ ")".data
      else
        head ++ "preview: ".data ++ (pyReplace (content.take 1000) "\n".data "\n".data).take 1000
  else
    head ++ (Nat.repr s.size).data ++ " bytes".data

/-- Source: `summarize_attachment_meta` (lines 48–72). -/
def summarize_attachment_meta (read : List Char → Except (List Char) (List Char))
    (saved : List DecodedAtt) : List Char :=
  joinNL (saved.map (summaryLine read))

/-- Source: `generate_readme_fallback` (lines 92–111). -/
def generate_readme_fallback (brief : List Char) (checks : Option (List (List Char)))
    (attachments_meta : List Char) (round_num : Nat) : List Char :=
  "# Auto-generated README (Round ".data ++ (Nat.repr round_num).data ++
    ")\n\n**Project brief:** ".data ++ brief ++
    "\n\n**Attachments:**\n".data ++ attachments_meta ++
    "\n\n**Checks to meet:**\n".data ++ joinNL (checks.getD []) ++
    "\n\n## Setup\n1. Open `index.html` in a browser.\n2. No build steps required.\n\n## Notes\nThis README was generated as a fallback because the LLM did not return an explicit README.\n".data

/-- The fixed fallback response text substituted when the external call fails
(lines 170–183). -/
def fallbackText (brief attachments_meta : List Char) (checks : Option (List (List Char)))
    (round_num : Nat) : List Char :=
  "\n```html\n<html>\n  <head><title>Fallback App</title></head>\n  <body>\n    <h1>Hello (fallback)</h1>\n    <p>This app was generated as a fallback because the Gemini API failed. Brief: ".data ++
    brief ++
    "</p>\n  </body>\n</html>\n```\n```markdown\n".data ++
    generate_readme_fallback brief checks attachments_meta round_num ++
    "\n```\n".data

/-- The orchestrator's result `{files: {index.html, README.md}, attachments}`. -/
structure GenResult where
  indexHtml : List Char
  readme : List Char
  attachments : List DecodedAtt
deriving DecidableEq

/-- Source: `generate_app_code` (lines 113–199).  `call` is the outcome of the
external Gemini call (`.ok text` for a response, with `response.text or ""`
already applied; `.error e` when the model is unavailable or the call raises).
`writeOk` and `read` are the file-system oracles used by attachment decoding
and summarising.  The prompt built from `brief`, `prev_readme`, etc. only
feeds the external call, so it does not appear in the data flow.  The result
is `none` exactly when the Python function propagates an exception (the
`IndexError` of `_strip_code_block`). -/
def generate_app_code (brief : List Char) (attachments : List AttIn)
    (checks : Option (List (List Char))) (round_num : Nat) (prev_readme : Option (List Char))
    (writeOk : List Char → Bool) (read : List Char → Except (List Char) (List Char))
    (call : Except (List Char) (List Char)) : Option GenResult :=
  let saved := (decode_attachments writeOk attachments).1
  let attachments_meta := summarize_attachment_meta read saved
  let text :=
    match call with
    | .ok t => t
    | .error _ => fallbackText brief attachments_meta checks round_num
  let parts := split3 text
  if 5 ≤ parts.length then
    match strip_code_block (delim3 ++ parts[1]! ++ delim3),
        strip_code_block (delim3 ++ parts[3]! ++ delim3) with
    | some code, some readme => some ⟨code, readme, saved⟩
    | _, _ => none
  else
    match strip_code_block text with
    | some code => some ⟨code, generate_readme_fallback brief checks attachments_meta round_num, saved⟩
    | none => none

end LlmGen

namespace LlmGen

/-! ## Lemmas about `containsTriple` and `split3` -/

lemma containsTriple_cons_of (c : Char) {l : List Char} (h : containsTriple l = true) :
    containsTriple (c :: l) = true := by
  match l with
  | [] => simp [containsTriple] at h
  | [d] => simp [containsTriple] at h
  | d :: e :: rest =>
    simp only [containsTriple, Bool.or_eq_true] at h ⊢
    exact Or.inr h

lemma containsTriple_cons_false {c : Char} {l : List Char}
    (h : containsTriple (c :: l) = false) : containsTriple l = false := by
  by_contra hne
  rw [containsTriple_cons_of c (by simpa using hne)] at h
  exact absurd h (by simp)

lemma containsTriple_cons_ne {c : Char} (l : List Char) (hc : c ≠ bt) :
    containsTriple (c :: l) = containsTriple l := by
  match l with
  | [] => simp [containsTriple]
  | [d] => simp [containsTriple]
  | d :: e :: rest =>
    simp only [containsTriple]
    have : (c == bt) = false := by simpa using hc
    simp [this]

lemma containsTriple_append_nobt {a : List Char} (x : List Char) (h : bt ∉ a) :
    containsTriple (a ++ x) = containsTriple x := by
  induction a with
  | nil => rfl
  | cons c a ih =>
    have hc : c ≠ bt := fun hcc => h (hcc ▸ List.mem_cons_self c a)
    rw [List.cons_append, containsTriple_cons_ne _ hc, ih (fun hm => h (List.mem_cons_of_mem c hm))]

lemma split3_ne_nil : ∀ l : List Char, split3 l ≠ []
  | [] => by simp [split3]
  | [c] => by simp [split3]
  | [c, d] => by simp [split3]
  | c :: d :: e :: rest => by
    simp only [split3]
    split
    · simp
    · split <;> simp

lemma split3_delim (rest : List Char) : split3 (bt :: bt :: bt :: rest) = [] :: split3 rest := by
  simp [split3]

lemma split3_cons (c : Char) (l : List Char) (h : ¬(c = bt ∧ l.take 2 = [bt, bt])) :
    split3 (c :: l) = (split3 l).modifyHead (c :: ·) := by
  match l with
  | [] => simp [split3]
  | [d] => simp [split3]
  | d :: e :: rest =>
    have h' : ¬(c = bt ∧ d = bt ∧ e = bt) := by
      intro hh
      exact h ⟨hh.1, by simp [hh.2.1, hh.2.2]⟩
    rw [split3, if_neg h']
    obtain ⟨s, ss, hs⟩ := List.exists_cons_of_ne_nil (split3_ne_nil (d :: e :: rest))
    rw [hs]
    simp

lemma split3_append (a x : List Char) (h : containsTriple (a ++ x.take 2) = false) :
    split3 (a ++ x) = (split3 x).modifyHead (a ++ ·) := by
  induction a with
  | nil =>
    obtain ⟨s, ss, hs⟩ := List.exists_cons_of_ne_nil (split3_ne_nil x)
    simp [hs]
  | cons c a ih =>
    have htail : containsTriple (a ++ x.take 2) = false :=
      containsTriple_cons_false (by simpa using h)
    have hcons : ¬(c = bt ∧ (a ++ x).take 2 = [bt, bt]) := by
      rintro ⟨hc, ht⟩
      subst hc
      have : containsTriple ((bt :: a) ++ x.take 2) = true := by
        match a with
        | [] =>
          simp only [List.nil_append] at ht
          simp [containsTriple, ht]
        | [d] =>
          simp only [List.cons_append, List.nil_append, List.take] at ht
          have hd : d = bt := by
            have := congrArg (fun t => t.headI) ht
            simpa using this
          match x, ht with
          | x0 :: xs, ht =>
            have hx0 : x0 = bt := by
              simp [List.take, hd] at ht
              exact ht
            simp [containsTriple, hd, hx0]
        | d :: e :: a' =>
          simp only [List.cons_append, List.take] at ht
          have hd : d = bt := by
            have := congrArg (fun t => t.headI) ht
            simpa using this
          have he : e = bt := by
            have := congrArg (fun t => t.tail.headI) ht
            simpa using this
          simp [containsTriple, hd, he]
      rw [this] at h
      exact absurd h (by simp)
    rw [List.cons_append, split3_cons c (a ++ x) hcons, ih htail, List.modifyHead_modifyHead]
    congr 1

lemma split3_nosplit (a : List Char) (h : containsTriple a = false) : split3 a = [a] := by
  have h2 : containsTriple (a ++ ([] : List Char).take 2) = false := by simpa using h
  have := split3_append a [] h2
  simpa [split3] using this

lemma split3_part (a y : List Char) (h : containsTriple (a ++ [bt, bt]) = false) :
    split3 (a ++ bt :: bt :: bt :: y) = a :: split3 y := by
  have h2 : containsTriple (a ++ (bt :: bt :: bt :: y).take 2) = false := by simpa using h
  rw [split3_append a _ h2, split3_delim]
  simp

end LlmGen

namespace LlmGen

/-! ## Lemmas about `findSub`, `rfindSub`, `findCharFrom` -/

lemma filter_range'_head (p : Nat → Bool) :
    ∀ n s m, s ≤ m → m < s + n → p m = true → (∀ k, s ≤ k → k < m → p k = false) →
      ((List.range' s n).filter p).head? = some m
  | 0, _, _, _, hmn, _, _ => absurd hmn (by omega)
  | n + 1, s, m, hsm, hmn, hpm, hlt => by
    rw [List.range'_succ]
    rcases Nat.eq_or_lt_of_le hsm with heq | hlt2
    · subst heq
      simp [List.filter_cons, hpm]
    · have hps : p s = false := hlt s le_rfl hlt2
      simp only [List.filter_cons, hps, if_false, Bool.false_eq_true]
      exact filter_range'_head p n (s + 1) m hlt2 (by omega) hpm
        (fun k hk1 hk2 => hlt k (by omega) hk2)

lemma filter_range'_getLast (p : Nat → Bool) :
    ∀ n s m, s ≤ m → m < s + n → p m = true → (∀ k, m < k → k < s + n → p k = false) →
      ((List.range' s n).filter p).getLast? = some m
  | 0, _, _, _, hmn, _, _ => absurd hmn (by omega)
  | n + 1, s, m, hsm, hmn, hpm, hgt => by
    rw [List.range'_succ]
    rcases Nat.eq_or_lt_of_le hsm with heq | hlt2
    · subst heq
      have hrest : (List.range' (s + 1) n).filter p = [] := by
        rw [List.filter_eq_nil_iff]
        intro a ha
        rw [List.mem_range'] at ha
        obtain ⟨i, hi, hai⟩ := ha
        simp only [one_mul] at hai
        simp [hgt a (by omega) (by omega)]
      simp [List.filter_cons, hpm, hrest]
    · cases hps : p s with
      | false =>
        simp only [List.filter_cons, hps, if_false, Bool.false_eq_true]
        exact filter_range'_getLast p n (s + 1) m hlt2 (by omega) hpm
          (fun k hk1 hk2 => hgt k hk1 (by omega))
      | true =>
        have hmem : m ∈ (List.range' (s + 1) n).filter p := by
          rw [List.mem_filter]
          refine ⟨?_, hpm⟩
          rw [List.mem_range']
          exact ⟨m - (s + 1), by omega, by simp; omega⟩
        have hne : (List.range' (s + 1) n).filter p ≠ [] := by
          intro hnil
          rw [hnil] at hmem
          exact absurd hmem (List.not_mem_nil m)
        obtain ⟨b, L, hbl⟩ := List.exists_cons_of_ne_nil hne
        simp only [List.filter_cons, hps, if_true]
        rw [hbl, List.getLast?_cons_cons, ← hbl]
        exact filter_range'_getLast p n (s + 1) m hlt2 (by omega) hpm
          (fun k hk1 hk2 => hgt k hk1 (by omega))

lemma isPrefixOf_length_le {pat l : List Char} (h : pat.isPrefixOf l = true) :
    pat.length ≤ l.length := by
  simp at h
  exact h.length_le

lemma findSub_zero {t : List Char} {pat : List Char} (h : pat.isPrefixOf t = true) :
    findSub t pat = some 0 := by
  unfold findSub
  rw [List.range_eq_range']
  exact filter_range'_head _ (t.length + 1) 0 0 le_rfl (by omega) (by simpa using h)
    (fun k _ hk => absurd hk (by omega))

lemma rfindSub_append (x pat : List Char) (hp : pat ≠ []) :
    rfindSub (x ++ pat) pat = some x.length := by
  unfold rfindSub
  rw [List.range_eq_range']
  apply filter_range'_getLast _ ((x ++ pat).length + 1) 0 x.length (by omega)
    (by simp; omega) ?hp ?hgt
  case hp =>
    rw [List.drop_left]
    simp
  case hgt =>
    intro k hk1 hk2
    simp only [List.length_append] at hk1 hk2
    cases hpk : pat.isPrefixOf ((x ++ pat).drop k) with
    | false => rfl
    | true =>
      have hlen := isPrefixOf_length_le hpk
      rw [List.length_drop, List.length_append] at hlen
      have hpat : 0 < pat.length := List.length_pos.mpr hp
      omega

lemma findCharFrom_spec (t : List Char) (c : Char) (start m : Nat)
    (hs : start ≤ m) (hm : m < t.length) (hc : t[m]? = some c)
    (hlt : ∀ k, start ≤ k → k < m → t[k]? ≠ some c) :
    findCharFrom t c start = some m := by
  unfold findCharFrom
  rw [List.range_eq_range']
  apply filter_range'_head _ t.length 0 m (by omega) (by omega) ?hm ?hlt
  case hm => simp [hs, hc]
  case hlt =>
    intro k _ hk
    by_cases hks : start ≤ k
    · simp [hks]
      intro hkc
      exact absurd (by simpa using hkc) (hlt k hks hk)
    · simp [hks]

/-! ## Lemmas about `pyStrip` -/

lemma pyStrip_cons_space {c : Char} (l : List Char) (h : isPySpace c = true) :
    pyStrip (c :: l) = pyStrip l := by
  simp [pyStrip, List.dropWhile_cons, h]

lemma pyStrip_ne_nil {l : List Char} {c : Char} (hc : c ∈ l) (hns : isPySpace c = false) :
    pyStrip l ≠ [] := by
  intro h
  unfold pyStrip at h
  rw [List.reverse_eq_nil_iff, List.dropWhile_eq_nil_iff] at h
  have hsplit := List.takeWhile_append_dropWhile (p := isPySpace) (l := l)
  rcases List.mem_append.mp (by rw [hsplit]; exact hc) with h1 | h2
  · exact absurd (List.mem_takeWhile_imp h1) (by simp [hns])
  · exact absurd (h c (List.mem_reverse.mpr h2)) (by simp [hns])

/-! ## Behaviour of `strip_code_block` on a reconstituted fence -/

lemma getElem3_mid {A B C : List Char} {k : Nat} (h1 : A.length ≤ k)
    (h2 : k < A.length + B.length) :
    (A ++ B ++ C)[k]? = B[k - A.length]? := by
  rw [List.getElem?_append_left (by simp; omega), List.getElem?_append_right h1]

lemma strip_code_block_wrapped (tag body : List Char) (htag : '\n' ∉ tag)
    (hne : tag = [] ∨ body ≠ []) :
    strip_code_block (delim3 ++ (tag ++ '\n' :: body) ++ delim3) = some (pyStrip body) := by
  have hfind : findSub (delim3 ++ (tag ++ '\n' :: body) ++ delim3) delim3 = some 0 := by
    apply findSub_zero
    rw [List.append_assoc]
    simp
  have hrfind : rfindSub (delim3 ++ (tag ++ '\n' :: body) ++ delim3) delim3
      = some (3 + (tag.length + 1 + body.length)) := by
    rw [rfindSub_append _ _ (by simp [delim3])]
    simp [delim3]
    omega
  cases tag with
  | nil =>
    have ht3 : (delim3 ++ (([] : List Char) ++ '\n' :: body) ++ delim3)[3]? = some '\n' := by
      rw [getElem3_mid (by simp [delim3]) (by simp [delim3])]
      simp [delim3]
    simp only [strip_code_block, hfind, ht3, hrfind, if_true]
    split
    · next hcond =>
      have hslice : pySlice (delim3 ++ (([] : List Char) ++ '\n' :: body) ++ delim3) (0 + 3)
          (3 + (([] : List Char).length + 1 + body.length)) = '\n' :: body := by
        unfold pySlice
        rw [List.take_left' (by simp [delim3] <;> omega), List.drop_left' (by simp [delim3])]
        simp
      rw [hslice, pyStrip_cons_space body (by decide)]
    · next hcond => exact absurd (by omega) hcond
  | cons d tag' =>
    have hd : d ≠ '\n' := fun hdd => htag (hdd ▸ List.mem_cons_self d tag')
    have hbody : body ≠ [] := hne.resolve_left (by simp)
    have ht3 : (delim3 ++ ((d :: tag') ++ '\n' :: body) ++ delim3)[3]? = some d := by
      rw [getElem3_mid (by simp [delim3]) (by simp [delim3] <;> omega)]
      simp [delim3]
    have hfc : findCharFrom (delim3 ++ ((d :: tag') ++ '\n' :: body) ++ delim3) '\n' (0 + 3)
        = some (3 + (d :: tag').length) := by
      apply findCharFrom_spec _ _ _ _ (by simp <;> omega) (by simp [delim3] <;> omega) ?hc ?hlt
      case hc =>
        rw [getElem3_mid (by simp [delim3] <;> omega) (by simp [delim3] <;> omega)]
        have hidx : 3 + (d :: tag').length - delim3.length - (d :: tag').length = 0 := by
          simp [delim3]
        rw [List.getElem?_append_right (by simp [delim3] <;> omega), hidx]
        simp
      case hlt =>
        intro k hk3 hkm
        simp only [List.length_cons] at hkm
        rw [getElem3_mid (by simp [delim3] <;> omega) (by simp [delim3] <;> omega)]
        rw [List.getElem?_append_left (by simp [delim3] <;> omega)]
        intro hcontra
        exact htag (List.getElem?_mem hcontra)
    simp only [strip_code_block, hfind, ht3, hrfind, if_neg hd, hfc]
    split
    · next hcond =>
      have hslice : pySlice (delim3 ++ ((d :: tag') ++ '\n' :: body) ++ delim3)
          (3 + (d :: tag').length + 1) (3 + ((d :: tag').length + 1 + body.length)) = body := by
        unfold pySlice
        rw [List.take_left' (by simp [delim3] <;> omega)]
        have hsplit : delim3 ++ ((d :: tag') ++ '\n' :: body)
            = (delim3 ++ (d :: tag') ++ ['\n']) ++ body := by
          simp
        rw [hsplit, List.drop_left' (by simp [delim3] <;> omega)]
      rw [hslice]
    · next hcond =>
      exfalso
      apply hcond
      have hbl : 0 < body.length := List.length_pos.mpr hbody
      simp only [List.length_cons]
      omega

end LlmGen

namespace LlmGen

/-! ## Lemmas about `pyReplace`, `splitFirst` and `takeWhile` -/

lemma pyReplaceF_newline : ∀ (fuel : Nat) (l : List Char),
    pyReplaceF ['\n'] ['\n'] fuel l = l
  | 0, _ => rfl
  | _ + 1, [] => rfl
  | fuel + 1, c :: l => by
    simp only [pyReplaceF]
    by_cases hc : c = '\n'
    · subst hc
      rw [if_pos ⟨by simp, by simp [List.cons_prefix_cons]⟩]
      simp [pyReplaceF_newline fuel l]
    · have hneg : ¬((['\n'] : List Char) ≠ [] ∧ (['\n'] : List Char).isPrefixOf (c :: l) = true) := by
        rintro ⟨-, hp⟩
        have hp2 : (['\n'] : List Char) <+: c :: l := by simpa using hp
        rw [List.cons_prefix_cons] at hp2
        exact hc hp2.1.symm
      rw [if_neg hneg]
      exact congrArg (c :: ·) (pyReplaceF_newline fuel l)

lemma pyReplace_newline_id (l : List Char) : pyReplace l "\n".data "\n".data = l :=
  pyReplaceF_newline l.length l

lemma pyReplaceF_no_occ (rep pat : List Char) (x : Char) (hx : x ∈ pat) :
    ∀ (fuel : Nat) (m : List Char), x ∉ m → pyReplaceF rep pat fuel m = m
  | 0, _, _ => rfl
  | _ + 1, [], _ => rfl
  | fuel + 1, c :: m, h => by
    simp only [pyReplaceF]
    rw [if_neg]
    · exact congrArg (c :: ·)
        (pyReplaceF_no_occ rep pat x hx fuel m fun hm => h (List.mem_cons_of_mem c hm))
    · rintro ⟨-, hpre⟩
      have hp2 : pat <+: c :: m := by simpa using hpre
      exact h (hp2.sublist.subset hx)

lemma pyReplaceF_head_match (rep : List Char) (p0 : Char) (pr : List Char) (fuel : Nat)
    (l : List Char) :
    pyReplaceF rep (p0 :: pr) (fuel + 1) (p0 :: (pr ++ l)) =
      rep ++ pyReplaceF rep (p0 :: pr) fuel l := by
  simp only [pyReplaceF]
  rw [if_pos ⟨by simp, by simp [List.cons_prefix_cons]⟩]
  congr 2
  have hlen : (p0 :: pr).length - 1 = pr.length := by simp
  rw [hlen, List.drop_left]

lemma pyReplace_data_scheme (m : List Char) (h : ':' ∉ m) :
    pyReplace ("data:".data ++ m) "data:".data [] = m := by
  unfold pyReplace
  have hlen : ("data:".data ++ m).length = m.length + 4 + 1 := by simp
  have hshape : "data:".data ++ m = 'd' :: ("ata:".data ++ m) := rfl
  have hpat : "data:".data = 'd' :: "ata:".data := rfl
  rw [hlen, hshape, hpat, pyReplaceF_head_match]
  rw [pyReplaceF_no_occ _ _ ':' (by decide) _ m h]
  simp

lemma splitFirst_append (a r : List Char) (ha : ',' ∉ a) :
    splitFirst ',' (a ++ ',' :: r) = some (a, r) := by
  induction a with
  | nil => simp [splitFirst]
  | cons c a ih =>
    have hc : c ≠ ',' := fun hcc => ha (hcc ▸ List.mem_cons_self c a)
    simp [splitFirst, hc, ih fun hm => ha (List.mem_cons_of_mem c hm)]

lemma takeWhile_semi (a r : List Char) (ha : ';' ∉ a) :
    takeUntilSemi (a ++ ';' :: r) = a := by
  induction a with
  | nil => simp [takeUntilSemi, List.takeWhile_cons]
  | cons c a ih =>
    have hc : c ≠ ';' := fun hcc => ha (hcc ▸ List.mem_cons_self c a)
    have hcb : (!(c == ';')) = true := by simp [hc]
    unfold takeUntilSemi at ih ⊢
    rw [List.cons_append, List.takeWhile_cons, hcb]
    simp only [if_true]
    rw [ih fun hm => ha (List.mem_cons_of_mem c hm)]

/-! ## No backtick in the decimal rendering of a natural number -/

lemma digitChar_ne_bt (d : Nat) : Nat.digitChar d ≠ bt := by
  rcases Nat.lt_or_ge d 16 with h | h
  · interval_cases d <;> decide
  · unfold Nat.digitChar
    iterate 16 rw [if_neg (by omega)]
    decide

lemma toDigitsCore_ne_bt : ∀ (fuel n : Nat) (acc : List Char), (∀ c ∈ acc, c ≠ bt) →
    ∀ c ∈ Nat.toDigitsCore 10 fuel n acc, c ≠ bt
  | 0, n, acc, hacc => by simpa [Nat.toDigitsCore] using hacc
  | fuel + 1, n, acc, hacc => by
    simp only [Nat.toDigitsCore]
    split
    · intro c hc
      rcases List.mem_cons.mp hc with h | h
      · exact h ▸ digitChar_ne_bt _
      · exact hacc c h
    · refine toDigitsCore_ne_bt fuel (n / 10) _ ?_
      intro c hc
      rcases List.mem_cons.mp hc with h | h
      · exact h ▸ digitChar_ne_bt _
      · exact hacc c h

lemma bt_not_mem_repr (n : Nat) : bt ∉ (Nat.repr n).data := by
  intro h
  exact toDigitsCore_ne_bt (n + 1) n [] (by simp) bt h rfl

/-! ## Membership in `joinNL` -/

lemma mem_joinNL {c : Char} : ∀ {L : List (List Char)}, c ∈ joinNL L →
    c = '\n' ∨ ∃ x ∈ L, c ∈ x
  | [], h => by simp [joinNL] at h
  | [x], h => Or.inr ⟨x, by simp, by simpa [joinNL] using h⟩
  | x :: y :: xs, h => by
    simp only [joinNL] at h
    rcases List.mem_append.mp h with h1 | h2
    · exact Or.inr ⟨x, by simp, h1⟩
    · rcases List.mem_cons.mp h2 with h3 | h4
      · exact Or.inl h3
      · rcases mem_joinNL h4 with h5 | ⟨z, hz, hcz⟩
        · exact Or.inl h5
        · exact Or.inr ⟨z, List.mem_cons_of_mem x hz, hcz⟩

lemma bt_not_mem_joinNL {L : List (List Char)} (h : ∀ x ∈ L, bt ∉ x) : bt ∉ joinNL L := by
  intro hm
  rcases mem_joinNL hm with h1 | ⟨x, hx, hbx⟩
  · exact absurd h1 (by decide)
  · exact h x hx hbx

end LlmGen

namespace LlmGen

/-! ## Splitting a two-fenced-block response and running the extractor on it -/

lemma split3_five (p0 s1 mid s2 post : List Char)
    (h0 : containsTriple (p0 ++ [bt, bt]) = false)
    (h1 : containsTriple (s1 ++ [bt, bt]) = false)
    (h2 : containsTriple (mid ++ [bt, bt]) = false)
    (h3 : containsTriple (s2 ++ [bt, bt]) = false)
    (h4 : containsTriple post = false) :
    split3 (p0 ++ delim3 ++ s1 ++ delim3 ++ mid ++ delim3 ++ s2 ++ delim3 ++ post)
      = [p0, s1, mid, s2, post] := by
  have hre : p0 ++ delim3 ++ s1 ++ delim3 ++ mid ++ delim3 ++ s2 ++ delim3 ++ post
      = p0 ++ bt :: bt :: bt :: (s1 ++ bt :: bt :: bt :: (mid ++ bt :: bt :: bt ::
          (s2 ++ bt :: bt :: bt :: post))) := by
    simp [delim3, List.append_assoc]
  rw [hre, split3_part p0 _ h0, split3_part s1 _ h1, split3_part mid _ h2,
    split3_part s2 _ h3, split3_nosplit post h4]

/-- Running `generate_app_code` when the text to be parsed decomposes into two
well-formed fenced blocks: the extractor takes segments 1 and 3, re-wraps them
and strips them, yielding the two block bodies (trimmed). -/
lemma generate_app_code_five (brief : List Char) (atts : List AttIn)
    (checks : Option (List (List Char))) (round_num : Nat) (prev_readme : Option (List Char))
    (writeOk : List Char → Bool) (read : List Char → Except (List Char) (List Char))
    (call : Except (List Char) (List Char))
    (p0 tag1 body1 mid tag2 body2 post : List Char)
    (htext : (match call with
      | .ok t => t
      | .error _ => fallbackText brief
          (summarize_attachment_meta read (decode_attachments writeOk atts).1) checks round_num)
      = p0 ++ delim3 ++ (tag1 ++ '\n' :: body1) ++ delim3 ++ mid ++ delim3 ++
          (tag2 ++ '\n' :: body2) ++ delim3 ++ post)
    (h0 : containsTriple (p0 ++ [bt, bt]) = false)
    (h1 : containsTriple ((tag1 ++ '\n' :: body1) ++ [bt, bt]) = false)
    (h2 : containsTriple (mid ++ [bt, bt]) = false)
    (h3 : containsTriple ((tag2 ++ '\n' :: body2) ++ [bt, bt]) = false)
    (h4 : containsTriple post = false)
    (ht1 : '\n' ∉ tag1) (ht2 : '\n' ∉ tag2)
    (hb1 : tag1 = [] ∨ body1 ≠ []) (hb2 : tag2 = [] ∨ body2 ≠ []) :
    generate_app_code brief atts checks round_num prev_readme writeOk read call
      = some ⟨pyStrip body1, pyStrip body2, (decode_attachments writeOk atts).1⟩ := by
  simp only [generate_app_code]
  rw [htext, split3_five _ _ _ _ _ h0 h1 h2 h3 h4]
  rw [if_pos (by simp)]
  simp only [List.getElem!_cons_succ, List.getElem!_cons_zero]
  rw [strip_code_block_wrapped tag1 body1 ht1 hb1, strip_code_block_wrapped tag2 body2 ht2 hb2]

end LlmGen

namespace LlmGen

/-! ## Claim C9 -/

/-- Claim C9: for every brief, checks list, attachment summary and round number,
`generate_readme_fallback` is a pure total function (it is a Lean function, so
identical inputs trivially give identical output and there is no I/O or failure
mode) whose output starts with a title naming the round, contains the brief
verbatim, the attachment summary verbatim and the checks joined by newline in
their given order, and ends with the fixed Setup and Notes sections. -/
theorem claim_C9 (brief : List Char) (checks : Option (List (List Char)))
    (attachments_meta : List Char) (round_num : Nat) :
    (("# Auto-generated README (Round ".data ++ (Nat.repr round_num).data) <+:
        generate_readme_fallback brief checks attachments_meta round_num) ∧
    (brief <:+: generate_readme_fallback brief checks attachments_meta round_num) ∧
    (attachments_meta <:+: generate_readme_fallback brief checks attachments_meta round_num) ∧
    (joinNL (checks.getD []) <:+: generate_readme_fallback brief checks attachments_meta round_num) ∧
    ("\n\n## Setup\n1. Open `index.html` in a browser.\n2. No build steps required.\n\n## Notes\nThis README was generated as a fallback because the LLM did not return an explicit README.\n".data
      <:+ generate_readme_fallback brief checks attachments_meta round_num) := by
  refine ⟨⟨")\n\n**Project brief:** ".data ++ brief ++ "\n\n**Attachments:**\n".data ++
      attachments_meta ++ "\n\n**Checks to meet:**\n".data ++ joinNL (checks.getD []) ++
      "\n\n## Setup\n1. Open `index.html` in a browser.\n2. No build steps required.\n\n## Notes\nThis README was generated as a fallback because the LLM did not return an explicit README.\n".data, ?_⟩,
    ⟨"# Auto-generated README (Round ".data ++ (Nat.repr round_num).data ++
      ")\n\n**Project brief:** ".data,
      "\n\n**Attachments:**\n".data ++ attachments_meta ++ "\n\n**Checks to meet:**\n".data ++
      joinNL (checks.getD []) ++
      "\n\n## Setup\n1. Open `index.html` in a browser.\n2. No build steps required.\n\n## Notes\nThis README was generated as a fallback because the LLM did not return an explicit README.\n".data, ?_⟩,
    ⟨"# Auto-generated README (Round ".data ++ (Nat.repr round_num).data ++
      ")\n\n**Project brief:** ".data ++ brief ++ "\n\n**Attachments:**\n".data,
      "\n\n**Checks to meet:**\n".data ++ joinNL (checks.getD []) ++
      "\n\n## Setup\n1. Open `index.html` in a browser.\n2. No build steps required.\n\n## Notes\nThis README was generated as a fallback because the LLM did not return an explicit README.\n".data, ?_⟩,
    ⟨"# Auto-generated README (Round ".data ++ (Nat.repr round_num).data ++
      ")\n\n**Project brief:** ".data ++ brief ++ "\n\n**Attachments:**\n".data ++
      attachments_meta ++ "\n\n**Checks to meet:**\n".data,
      "\n\n## Setup\n1. Open `index.html` in a browser.\n2. No build steps required.\n\n## Notes\nThis README was generated as a fallback because the LLM did not return an explicit README.\n".data, ?_⟩,
    ⟨"# Auto-generated README (Round ".data ++ (Nat.repr round_num).data ++
      ")\n\n**Project brief:** ".data ++ brief ++ "\n\n**Attachments:**\n".data ++
      attachments_meta ++ "\n\n**Checks to meet:**\n".data ++ joinNL (checks.getD []), ?_⟩⟩ <;>
    simp [generate_readme_fallback, List.append_assoc]

/-! ## Claim C2 -/

/-- Claim C2 (code bug): the claim says the extractor (delimiter split plus
`_strip_code_block`) returns normally on every input, in particular on inputs
that end immediately after a triple-backtick delimiter.  In the code,
`_strip_code_block` evaluates `text[start]` with `start == len(text)` on such
inputs and raises `IndexError`; `generate_app_code` reaches it through the
fewer-than-5-segments branch on the raw response `"abc```"` (outside the
`try`), so the exception propagates to the caller.  The model returns `none`
exactly where the Python code raises. -/
theorem claim_C2_bug :
    strip_code_block "abc```".data = none ∧
    generate_app_code "b".data [] none 1 none (fun _ => true) (fun _ => .ok [])
      (.ok "abc```".data) = none := by
  constructor <;> decide

/-! ## Claim C3 -/

/-- Claim C3 counterexample: the response
`"```html\n```\n```markdown\n# Doc\n```"` consists of exactly two well-formed
fenced blocks, the first with language tag `html` and empty inner content.
The claim says the extracted source is that inner content trimmed (the empty
string), but the code returns the whole reconstituted first fence
`"```html\n```"` unchanged (the closing position is not strictly after the
content start, so `_strip_code_block` falls back to returning its whole input
trimmed). -/
theorem claim_C3_counterexample :
    (generate_app_code "b".data [] none 1 none (fun _ => true) (fun _ => .ok [])
      (.ok "```html\n```\n```markdown\n# Doc\n```".data)).map GenResult.indexHtml
      = some "```html\n```".data ∧
    "```html\n```".data ≠ ([] : List Char) := by
  constructor <;> decide

/-- Claim C3 (amended): for every response that decomposes into exactly two
well-formed fenced blocks (each opened by a triple backtick optionally followed
by a language tag on the same line and closed by a triple backtick, no other
triple backtick or fence-adjacent backtick run anywhere), provided each block
with a non-empty language tag has non-empty content, the extractor returns the
first block's inner content as the source text and the second block's inner
content as the documentation text, each whitespace-trimmed and with the
leading language tag removed. -/
theorem claim_C3_amended (brief : List Char) (atts : List AttIn)
    (checks : Option (List (List Char))) (round_num : Nat) (prev_readme : Option (List Char))
    (writeOk : List Char → Bool) (read : List Char → Except (List Char) (List Char))
    (p0 tag1 body1 mid tag2 body2 post : List Char)
    (h0 : containsTriple (p0 ++ [bt, bt]) = false)
    (h1 : containsTriple ((tag1 ++ '\n' :: body1) ++ [bt, bt]) = false)
    (h2 : containsTriple (mid ++ [bt, bt]) = false)
    (h3 : containsTriple ((tag2 ++ '\n' :: body2) ++ [bt, bt]) = false)
    (h4 : containsTriple post = false)
    (ht1 : '\n' ∉ tag1) (ht2 : '\n' ∉ tag2)
    (hb1 : tag1 = [] ∨ body1 ≠ []) (hb2 : tag2 = [] ∨ body2 ≠ []) :
    generate_app_code brief atts checks round_num prev_readme writeOk read
      (.ok (p0 ++ delim3 ++ (tag1 ++ '\n' :: body1) ++ delim3 ++ mid ++ delim3 ++
        (tag2 ++ '\n' :: body2) ++ delim3 ++ post))
      = some ⟨pyStrip body1, pyStrip body2, (decode_attachments writeOk atts).1⟩ :=
  generate_app_code_five brief atts checks round_num prev_readme writeOk read _
    p0 tag1 body1 mid tag2 body2 post rfl h0 h1 h2 h3 h4 ht1 ht2 hb1 hb2

/-- Claim C3 witness: the spec's own example response yields source
`"<p>hi</p>"` and documentation `"# Doc"`. -/
theorem claim_C3_witness :
    generate_app_code "b".data [] none 1 none (fun _ => true) (fun _ => .ok [])
      (.ok "```html\n<p>hi</p>\n```\n```markdown\n# Doc\n```".data)
      = some ⟨"<p>hi</p>".data, "# Doc".data, []⟩ := by
  have heq : "```html\n<p>hi</p>\n```\n```markdown\n# Doc\n```".data
      = [] ++ delim3 ++ ("html".data ++ '\n' :: "<p>hi</p>\n".data) ++ delim3 ++ "\n".data ++
        delim3 ++ ("markdown".data ++ '\n' :: "# Doc\n".data) ++ delim3 ++ [] := by decide
  rw [heq, claim_C3_amended "b".data [] none 1 none (fun _ => true) (fun _ => .ok [])
    [] "html".data "<p>hi</p>\n".data "\n".data "markdown".data "# Doc\n".data []
    (by decide) (by decide) (by decide) (by decide) (by decide) (by decide) (by decide)
    (by decide) (by decide)]
  decide

/-! ## Claim C4 -/

/-- Claim C4 counterexample: the response `"```"` splits into 2 segments
(fewer than 5), but the extractor does not return the stripped raw response
and fallback documentation — `_strip_code_block` raises `IndexError` on it
(modelled as `none`), so `generate_app_code` returns nothing at all. -/
theorem claim_C4_counterexample :
    (split3 "```".data).length < 5 ∧
    strip_code_block "```".data = none ∧
    generate_app_code "b".data [] none 1 none (fun _ => true) (fun _ => .ok [])
      (.ok "```".data) = none := by
  refine ⟨by decide, by decide, by decide⟩

/-- Claim C4 (amended): for every response whose split on the triple-backtick
delimiter yields fewer than 5 segments and on which the block-stripping step
returns normally (it raises when the response's only delimiter occurrence ends
the text, see claim C2), the extractor returns the block-stripping step applied
to the entire raw response as the source text, and exactly the fallback
documentation generator's output for the same brief, checks, attachment
summary and round as the documentation text — a non-empty string. -/
theorem claim_C4_amended (brief : List Char) (atts : List AttIn)
    (checks : Option (List (List Char))) (round_num : Nat) (prev_readme : Option (List Char))
    (writeOk : List Char → Bool) (read : List Char → Except (List Char) (List Char))
    (text s : List Char)
    (hlen : (split3 text).length < 5)
    (hstrip : strip_code_block text = some s) :
    generate_app_code brief atts checks round_num prev_readme writeOk read (.ok text)
      = some ⟨s, generate_readme_fallback brief checks
          (summarize_attachment_meta read (decode_attachments writeOk atts).1) round_num,
          (decode_attachments writeOk atts).1⟩ ∧
    generate_readme_fallback brief checks
      (summarize_attachment_meta read (decode_attachments writeOk atts).1) round_num ≠ [] := by
  constructor
  · simp only [generate_app_code]
    rw [if_neg (by omega), hstrip]
  · have h1 : "# Auto-generated README (Round ".data ≠ ([] : List Char) := by decide
    simp [generate_readme_fallback, h1]

set_option maxRecDepth 8192 in
/-- Claim C4 witness: a response with a single fenced block takes the
fewer-than-5-segments branch; the source is the stripped raw response and the
documentation is the synthesized fallback README. -/
theorem claim_C4_witness :
    generate_app_code "b".data [] none 1 none (fun _ => true) (fun _ => .ok [])
      (.ok "```html\n<p>hi</p>\n```".data)
      = some ⟨"<p>hi</p>".data,
          "# Auto-generated README (Round 1)\n\n**Project brief:** b\n\n**Attachments:**\n\n\n**Checks to meet:**\n\n\n## Setup\n1. Open `index.html` in a browser.\n2. No build steps required.\n\n## Notes\nThis README was generated as a fallback because the LLM did not return an explicit README.\n".data,
          []⟩ := by
  have h := claim_C4_amended "b".data [] none 1 none (fun _ => true) (fun _ => .ok [])
    "```html\n<p>hi</p>\n```".data "<p>hi</p>".data (by decide) (by decide)
  exact h.1.trans (by decide)

end LlmGen

namespace LlmGen

/-! ## Structural facts about `decodeAtt` and `decode_attachments` -/

lemma attName_default {a : AttIn} (h : a.name = none ∨ a.name = some []) :
    attName a = "attachment".data := by
  rcases h with h | h <;> simp [attName, h]

lemma decodeAtt_some {writeOk : List Char → Bool} {a : AttIn} {rec : DecodedAtt}
    {w : List Char × List Nat} (h : decodeAtt writeOk a = some (rec, w)) :
    rec.name = attName a ∧ rec.path = pathJoin TMP_DIR (attName a) ∧ w.1 = rec.path := by
  simp only [decodeAtt] at h
  split at h
  · split at h
    · exact absurd h (by simp)
    · split at h
      · exact absurd h (by simp)
      · split at h
        · simp only [Option.some.injEq, Prod.mk.injEq] at h
          obtain ⟨hrec, hw2⟩ := h
          subst hrec
          subst hw2
          exact ⟨rfl, rfl, rfl⟩
        · exact absurd h (by simp)
  · exact absurd h (by simp)

lemma decode_attachments_skip (writeOk : List Char → Bool) (att : AttIn)
    (hnone : decodeAtt writeOk att = none) :
    ∀ pre post : List AttIn,
      decode_attachments writeOk (pre ++ att :: post) = decode_attachments writeOk (pre ++ post)
  | [], post => by simp [decode_attachments, hnone]
  | a :: pre, post => by
    simp only [List.cons_append, decode_attachments, List.append_eq]
    rw [decode_attachments_skip writeOk att hnone pre post]

/-! ## Claim C6 -/

/-- Claim C6: an attachment whose url does not start with `data:` is skipped
with no output record, no write and no error, and more generally any
attachment on which per-attachment processing fails (missing comma, bad
base64, failed write — the caught exceptions) is dropped while all other
attachments, before and after it, are still processed exactly as without it.
The decoder itself is a total function (it never raises). -/
theorem claim_C6 (writeOk : List Char → Bool) (pre post : List AttIn) (att : AttIn)
    (h : pyStartsWith att.url ("data:".data) = false ∨ decodeAtt writeOk att = none) :
    decodeAtt writeOk att = none ∧
    decode_attachments writeOk (pre ++ att :: post) = decode_attachments writeOk (pre ++ post) := by
  have hnone : decodeAtt writeOk att = none := by
    rcases h with h | h
    · simp [decodeAtt, h]
    · exact h
  exact ⟨hnone, decode_attachments_skip writeOk att hnone pre post⟩

/-- Claim C6 witness: an `https:` attachment between decoding calls is dropped
and the remaining attachment is still decoded. -/
theorem claim_C6_witness :
    decode_attachments (fun _ => true)
      [⟨some "x".data, "https://example.com/x".data⟩,
       ⟨some "a.txt".data, "data:text/plain;base64,aGVsbG8=".data⟩]
      = decode_attachments (fun _ => true)
        [⟨some "a.txt".data, "data:text/plain;base64,aGVsbG8=".data⟩] := by
  have h := claim_C6 (fun _ => true) []
    [⟨some "a.txt".data, "data:text/plain;base64,aGVsbG8=".data⟩]
    ⟨some "x".data, "https://example.com/x".data⟩ (Or.inl (by decide))
  simpa using h.2

/-! ## Claim C5 -/

/-- Claim C5: for every attachment input whose url is a valid data URI
`data:<mime>;base64,<payload>` (the mime type contains no semicolon, comma or
colon, and the payload decodes as base64), the decoder produces exactly one
record whose `size` is the length of the decoded bytes and whose `mime` is the
header part before the first semicolon with the `data:` prefix removed, and
performs exactly one file write, at the record's `path`, of exactly the
decoded bytes. -/
theorem claim_C5 (nm : Option (List Char)) (mimeStr payload : List Char) (data : List Nat)
    (writeOk : List Char → Bool)
    (hsemi : ';' ∉ mimeStr) (hcomma : ',' ∉ mimeStr) (hcolon : ':' ∉ mimeStr)
    (hb64 : b64decode payload = some data)
    (hwrite : ∀ p, writeOk p = true) :
    ∃ rec w,
      decode_attachments writeOk
        [⟨nm, "data:".data ++ mimeStr ++ ";base64,".data ++ payload⟩] = ([rec], [w]) ∧
      rec.size = data.length ∧ rec.mime = mimeStr ∧
      w.1 = rec.path ∧ w.2 = data ∧
      finalContents [w] rec.path = some data := by
  have hurl : "data:".data ++ mimeStr ++ ";base64,".data ++ payload
      = ("data:".data ++ mimeStr ++ ";base64".data) ++ ',' :: payload := by
    have h1 : ";base64,".data = ";base64".data ++ [','] := rfl
    simp [h1, List.append_assoc]
  have hsplit : splitFirst ',' ("data:".data ++ mimeStr ++ ";base64,".data ++ payload)
      = some ("data:".data ++ mimeStr ++ ";base64".data, payload) := by
    rw [hurl]
    exact splitFirst_append _ _
      (List.not_mem_append (List.not_mem_append (by decide) hcomma) (by decide))
  have htake : takeUntilSemi ("data:".data ++ mimeStr ++ ";base64".data)
      = "data:".data ++ mimeStr := by
    have h2 : ";base64".data = ';' :: "base64".data := rfl
    rw [h2]
    exact takeWhile_semi _ _ (List.not_mem_append (by decide) hsemi)
  have hmime : pyReplace (takeUntilSemi ("data:".data ++ mimeStr ++ ";base64".data))
      ("data:".data) [] = mimeStr := by
    rw [htake]
    exact pyReplace_data_scheme mimeStr hcolon
  have hstart : pyStartsWith ("data:".data ++ mimeStr ++ ";base64,".data ++ payload)
      ("data:".data) = true := by
    simp [pyStartsWith, List.append_assoc]
  refine ⟨⟨attName ⟨nm, "data:".data ++ mimeStr ++ ";base64,".data ++ payload⟩,
      pathJoin TMP_DIR (attName ⟨nm, "data:".data ++ mimeStr ++ ";base64,".data ++ payload⟩),
      mimeStr, data.length⟩,
    (pathJoin TMP_DIR (attName ⟨nm, "data:".data ++ mimeStr ++ ";base64,".data ++ payload⟩), data),
    ?_, rfl, rfl, rfl, rfl, ?_⟩
  · simp only [decode_attachments, decodeAtt, hstart, if_true, hsplit, hmime, hb64, hwrite]
  · simp [finalContents]

/-- Claim C5 witness: the spec's example
`url = "data:text/plain;base64,aGVsbG8="` decodes to the five bytes of
`"hello"` with mime `text/plain`. -/
theorem claim_C5_witness :
    ∃ rec w,
      decode_attachments (fun _ => true)
        [⟨some "a.txt".data, "data:".data ++ "text/plain".data ++ ";base64,".data ++ "aGVsbG8=".data⟩]
        = ([rec], [w]) ∧
      rec.size = ([104, 101, 108, 108, 111] : List Nat).length ∧
      rec.mime = "text/plain".data ∧
      w.1 = rec.path ∧ w.2 = [104, 101, 108, 108, 111] ∧
      finalContents [w] rec.path = some [104, 101, 108, 108, 111] :=
  claim_C5 (some "a.txt".data) "text/plain".data "aGVsbG8=".data [104, 101, 108, 108, 111]
    (fun _ => true) (by decide) (by decide) (by decide) (by decide) (fun _ => rfl)

/-! ## Claim C10 -/

/-- Claim C10: an attachment whose name is missing/null (`none`) or the empty
string gets the literal name `attachment`; its file is written at the scratch
path for `attachment` and the returned record's name is `attachment`; two such
inputs in one call produce records with the same path, and the second write
overwrites the first at that path. -/
theorem claim_C10 (writeOk : List Char → Bool) (a1 a2 : AttIn)
    (h1n : a1.name = none ∨ a1.name = some []) (h2n : a2.name = none ∨ a2.name = some [])
    (rec1 rec2 : DecodedAtt) (w1 w2 : List Char × List Nat)
    (hd1 : decodeAtt writeOk a1 = some (rec1, w1))
    (hd2 : decodeAtt writeOk a2 = some (rec2, w2)) :
    rec1.name = "attachment".data ∧ rec2.name = "attachment".data ∧
    rec1.path = "/tmp/llm_attachments/attachment".data ∧ rec2.path = rec1.path ∧
    decode_attachments writeOk [a1, a2] = ([rec1, rec2], [w1, w2]) ∧
    finalContents [w1, w2] rec1.path = some w2.2 := by
  obtain ⟨hn1, hp1, hw1⟩ := decodeAtt_some hd1
  obtain ⟨hn2, hp2, hw2⟩ := decodeAtt_some hd2
  have ha1 : attName a1 = "attachment".data := attName_default h1n
  have ha2 : attName a2 = "attachment".data := attName_default h2n
  have hpath1 : rec1.path = "/tmp/llm_attachments/attachment".data := by
    rw [hp1, ha1]; decide
  have hpath2 : rec2.path = rec1.path := by
    rw [hp2, ha2, hpath1, pathJoin]; decide
  refine ⟨by rw [hn1, ha1], by rw [hn2, ha2], hpath1, hpath2, ?_, ?_⟩
  · simp [decode_attachments, hd1, hd2]
  · simp [finalContents, hw1, hw2, hpath2]

/-- Claim C10 witness: two attachments, one with a missing name and one with an
empty name, are both saved as `attachment` at the same path, and the final
contents at that path are the second attachment's bytes. -/
theorem claim_C10_witness :
    ∃ rec1 rec2 : DecodedAtt, ∃ w1 w2 : List Char × List Nat,
      rec1.name = "attachment".data ∧ rec2.name = "attachment".data ∧
      rec1.path = "/tmp/llm_attachments/attachment".data ∧ rec2.path = rec1.path ∧
      decode_attachments (fun _ => true)
        [⟨none, "data:text/plain;base64,aGVsbG8=".data⟩,
         ⟨some [], "data:text/plain;base64,d28=".data⟩] = ([rec1, rec2], [w1, w2]) ∧
      finalContents [w1, w2] rec1.path = some w2.2 := by
  refine ⟨⟨"attachment".data, "/tmp/llm_attachments/attachment".data, "text/plain".data, 5⟩,
    ⟨"attachment".data, "/tmp/llm_attachments/attachment".data, "text/plain".data, 2⟩,
    ("/tmp/llm_attachments/attachment".data, [104, 101, 108, 108, 111]),
    ("/tmp/llm_attachments/attachment".data, [119, 111]), ?_⟩
  exact claim_C10 (fun _ => true) _ _ (Or.inl rfl) (Or.inr rfl) _ _ _ _ (by decide) (by decide)

end LlmGen

namespace LlmGen

/-! ## Claim C8 -/

/-- Claim C8: the summarizer output is the newline-join of a list with exactly
one entry per attachment, in input order; every entry starts with
`- <name> (<mime>): `; and whenever reading a qualifying attachment's file
fails (error `e`), that attachment's entry is the
`(could not read preview: <e>)` form.  The function is total (never raises). -/
theorem claim_C8 (read : List Char → Except (List Char) (List Char)) (saved : List DecodedAtt) :
    summarize_attachment_meta read saved = joinNL (saved.map (summaryLine read)) ∧
    (saved.map (summaryLine read)).length = saved.length ∧
    (∀ (i : Nat) (s : DecodedAtt), saved[i]? = some s →
      ∃ rest, (saved.map (summaryLine read))[i]?
        = some ("- ".data ++ s.name ++ " (".data ++ s.mime ++ "): ".data ++ rest)) ∧
    (∀ (i : Nat) (s : DecodedAtt) (e : List Char), saved[i]? = some s →
      qualifies s = true → read s.path = .error e →
      (saved.map (summaryLine read))[i]?
        = some ("- ".data ++ s.name ++ " (".data ++ s.mime ++ "): ".data ++
            "(could not read preview: ".data ++ e ++ ")".data)) := by
  refine ⟨rfl, List.length_map saved _, ?_, ?_⟩
  · intro i s hs
    rw [List.getElem?_map, hs, Option.map_some']
    cases hq : qualifies s with
    | false => exact ⟨(Nat.repr s.size).data ++ " bytes".data,
        by simp [summaryLine, hq, List.append_assoc]⟩
    | true =>
      cases hr : read s.path with
      | error e => exact ⟨"(could not read preview: ".data ++ e ++ ")".data,
          by simp [summaryLine, hq, hr, List.append_assoc]⟩
      | ok content =>
        cases hcsv : pyEndsWith s.name (".csv".data) with
        | true =>
          cases h3 : decide (3 ≤ (pyLines content).length) with
          | true => exact ⟨"preview: ".data ++ joinNL (((pyLines content).take 3).map pyStrip),
              by simp [summaryLine, hq, hr, hcsv, of_decide_eq_true h3, List.append_assoc]⟩
          | false => exact ⟨"(could not read preview: ".data ++ ")".data,
              by simp [summaryLine, hq, hr, hcsv, of_decide_eq_false h3, List.append_assoc]⟩
        | false => exact ⟨"preview: ".data ++
              (pyReplace (content.take 1000) "\n".data "\n".data).take 1000,
            by simp [summaryLine, hq, hr, hcsv, List.append_assoc]⟩
  · intro i s e hs hq hr
    rw [List.getElem?_map, hs, Option.map_some']
    simp [summaryLine, hq, hr, List.append_assoc]

/-- Claim C8 witness: a two-attachment list produces two entries in order; the
second one, whose read fails with message `boom`, gets the error form. -/
theorem claim_C8_witness :
    ((([⟨"img.png".data, "/tmp/llm_attachments/img.png".data, "image/png".data, 9⟩,
        ⟨"a.txt".data, "/tmp/llm_attachments/a.txt".data, "text/plain".data, 5⟩]
        : List DecodedAtt).map
          (summaryLine fun _ => .error "boom".data))[1]?
      = some "- a.txt (text/plain): (could not read preview: boom)".data) ∧
    (([⟨"img.png".data, "/tmp/llm_attachments/img.png".data, "image/png".data, 9⟩,
        ⟨"a.txt".data, "/tmp/llm_attachments/a.txt".data, "text/plain".data, 5⟩]
        : List DecodedAtt).map
          (summaryLine fun _ => .error "boom".data)).length = 2 := by
  have h := claim_C8 (fun _ => .error "boom".data)
    [⟨"img.png".data, "/tmp/llm_attachments/img.png".data, "image/png".data, 9⟩,
     ⟨"a.txt".data, "/tmp/llm_attachments/a.txt".data, "text/plain".data, 5⟩]
  refine ⟨?_, h.2.1⟩
  have h4 := h.2.2.2 1 ⟨"a.txt".data, "/tmp/llm_attachments/a.txt".data, "text/plain".data, 5⟩
    "boom".data (by decide) (by decide) rfl
  exact h4.trans (by decide)

/-! ## Claim C7 -/

/-- Claim C7 counterexample: a `.csv` attachment whose first three lines carry
surrounding spaces.  The claim says the preview is the first three lines
verbatim joined by newline (`" a \n b \n c "`), but the code strips each line
(`next(f).strip()`), producing `"a\nb\nc"`. -/
theorem claim_C7_counterexample :
    summarize_attachment_meta (fun _ => .ok " a \n b \n c \n".data)
      [⟨"d.csv".data, "/tmp/llm_attachments/d.csv".data, "text/csv".data, 12⟩]
      = "- d.csv (text/csv): preview: a\nb\nc".data ∧
    "- d.csv (text/csv): preview: a\nb\nc".data
      ≠ "- d.csv (text/csv): preview:  a \n b \n c ".data := by
  constructor <;> decide

/-- Claim C7 (amended): for a qualifying attachment whose file reads
successfully, the summary line is `- <name> (<mime>): preview: <preview>`
where, for a `.csv` attachment whose file yields at least 3 lines, the preview
is those first 3 lines each whitespace-stripped, joined by newline (a `.csv`
file with fewer than 3 lines instead produces the could-not-read-preview line
with an empty message, from the caught `StopIteration`); for every other
qualifying attachment the preview is up to the first 1000 characters of the
content (the file is opened with undecodable bytes ignored rather than
raising, which the `read` oracle models). -/
theorem claim_C7_amended (read : List Char → Except (List Char) (List Char))
    (s : DecodedAtt) (content : List Char)
    (hr : read s.path = .ok content) :
    (pyEndsWith s.name (".csv".data) = true → 3 ≤ (pyLines content).length →
      summaryLine read s = "- ".data ++ s.name ++ " (".data ++ s.mime ++ "): ".data ++
        "preview: ".data ++ joinNL (((pyLines content).take 3).map pyStrip)) ∧
    (pyEndsWith s.name (".csv".data) = true → (pyLines content).length < 3 →
      summaryLine read s = "- ".data ++ s.name ++ " (".data ++ s.mime ++ "): ".data ++
        "(could not read preview: )".data) ∧
    (pyEndsWith s.name (".csv".data) = false → qualifies s = true →
      summaryLine read s = "- ".data ++ s.name ++ " (".data ++ s.mime ++ "): ".data ++
        "preview: ".data ++ content.take 1000) := by
  refine ⟨?_, ?_, ?_⟩
  · intro hcsv h3
    have hq : qualifies s = true := by simp [qualifies, hcsv]
    simp [summaryLine, hq, hr, hcsv, h3, List.append_assoc]
  · intro hcsv h3
    have hq : qualifies s = true := by simp [qualifies, hcsv]
    have hlit : "(could not read preview: ".data ++ ")".data
        = "(could not read preview: )".data := by decide
    simp [summaryLine, hq, hr, hcsv, Nat.not_le.mpr h3, ← hlit, List.append_assoc]
  · intro hcsv hq
    simp only [summaryLine, hq, hr, hcsv, if_true, Bool.false_eq_true, if_false]
    rw [pyReplace_newline_id, List.take_take]
    simp [List.append_assoc]

/-- Claim C7 witness: a `.csv` file with three clean lines previews as those
three lines; a `.txt` file previews as its contents (under 1000 characters). -/
theorem claim_C7_witness :
    summaryLine (fun _ => .ok "x,y\n1,2\n3,4\n".data)
      ⟨"d.csv".data, "/tmp/llm_attachments/d.csv".data, "text/csv".data, 12⟩
      = "- d.csv (text/csv): preview: x,y\n1,2\n3,4".data := by
  have h := (claim_C7_amended (fun _ => .ok "x,y\n1,2\n3,4\n".data)
    ⟨"d.csv".data, "/tmp/llm_attachments/d.csv".data, "text/csv".data, 12⟩
    "x,y\n1,2\n3,4\n".data rfl).1 (by decide) (by decide)
  exact h.trans (by decide)

end LlmGen

namespace LlmGen

/-! ## Claim C1 -/

/-- Claim C1 counterexample: when the external call succeeds and returns the
empty string, the orchestrator returns a result whose `files["index.html"]` is
the empty string, contradicting the claim that it is non-empty regardless of
what the call returns. -/
theorem claim_C1_counterexample :
    (generate_app_code "b".data [] none 1 none (fun _ => true) (fun _ => .ok [])
      (.ok [])).map GenResult.indexHtml = some [] := by
  decide

set_option maxRecDepth 32768 in
/-- Claim C1 (amended): when the external generation call fails, and the brief,
every check, and the attachment summary contain no backtick character, the
orchestrator returns a result whose `files["index.html"]` and
`files["README.md"]` are both non-empty (the substituted fallback response
splits into exactly five segments and both reconstituted fences strip to
non-empty bodies). -/
theorem claim_C1_amended (brief : List Char) (atts : List AttIn)
    (checks : Option (List (List Char))) (round_num : Nat) (prev_readme : Option (List Char))
    (writeOk : List Char → Bool) (read : List Char → Except (List Char) (List Char))
    (e : List Char)
    (hbrief : bt ∉ brief)
    (hchecks : ∀ c ∈ checks.getD [], bt ∉ c)
    (hmeta : bt ∉ summarize_attachment_meta read (decode_attachments writeOk atts).1) :
    ∃ r, generate_app_code brief atts checks round_num prev_readme writeOk read (.error e)
        = some r ∧ r.indexHtml ≠ [] ∧ r.readme ≠ [] := by
  have hfb : fallbackText brief
      (summarize_attachment_meta read (decode_attachments writeOk atts).1) checks round_num
      = "\n".data ++ delim3 ++ ("html".data ++ '\n' ::
          ("<html>\n  <head><title>Fallback App</title></head>\n  <body>\n    <h1>Hello (fallback)</h1>\n    <p>This app was generated as a fallback because the Gemini API failed. Brief: ".data ++
            brief ++ "</p>\n  </body>\n</html>\n".data)) ++ delim3 ++ "\n".data ++ delim3 ++
          ("markdown".data ++ '\n' ::
            (generate_readme_fallback brief checks
              (summarize_attachment_meta read (decode_attachments writeOk atts).1) round_num ++
              "\n".data)) ++ delim3 ++ "\n".data := by
    simp only [fallbackText]
    simp [delim3, bt, List.append_assoc]
  have hnl2 : containsTriple ("\n".data ++ [bt, bt]) = false := by decide
  have hnl0 : containsTriple "\n".data = false := by decide
  have hb1mem : bt ∉ ("html".data ++ '\n' ::
      ("<html>\n  <head><title>Fallback App</title></head>\n  <body>\n    <h1>Hello (fallback)</h1>\n    <p>This app was generated as a fallback because the Gemini API failed. Brief: ".data ++
        brief ++ "</p>\n  </body>\n</html>\n".data)) := by
    apply List.not_mem_append (by decide)
    intro hm
    rcases List.mem_cons.mp hm with h | h
    · exact absurd h (by decide)
    · rcases List.mem_append.mp h with h | h
      · rcases List.mem_append.mp h with h | h
        · exact absurd h (by decide)
        · exact hbrief h
      · exact absurd h (by decide)
  have h1 : containsTriple (("html".data ++ '\n' ::
      ("<html>\n  <head><title>Fallback App</title></head>\n  <body>\n    <h1>Hello (fallback)</h1>\n    <p>This app was generated as a fallback because the Gemini API failed. Brief: ".data ++
        brief ++ "</p>\n  </body>\n</html>\n".data)) ++ [bt, bt]) = false := by
    rw [containsTriple_append_nobt _ hb1mem]
    decide
  have hNB : bt ∉ ("# Auto-generated README (Round ".data ++ (Nat.repr round_num).data ++
      ")\n\n**Project brief:** ".data ++ brief ++ "\n\n**Attachments:**\n".data ++
      summarize_attachment_meta read (decode_attachments writeOk atts).1 ++
      "\n\n**Checks to meet:**\n".data ++ joinNL (checks.getD [])) :=
    List.not_mem_append (List.not_mem_append (List.not_mem_append (List.not_mem_append
      (List.not_mem_append (List.not_mem_append (List.not_mem_append (by decide)
        (bt_not_mem_repr round_num)) (by decide)) hbrief) (by decide)) hmeta) (by decide))
      (bt_not_mem_joinNL hchecks)
  have hX : bt ∉ ("markdown".data ++ '\n' ::
      ("# Auto-generated README (Round ".data ++ (Nat.repr round_num).data ++
        ")\n\n**Project brief:** ".data ++ brief ++ "\n\n**Attachments:**\n".data ++
        summarize_attachment_meta read (decode_attachments writeOk atts).1 ++
        "\n\n**Checks to meet:**\n".data ++ joinNL (checks.getD []))) := by
    apply List.not_mem_append (by decide)
    intro hm
    rcases List.mem_cons.mp hm with h | h
    · exact absurd h (by decide)
    · exact hNB h
  have hregroup : (("markdown".data ++ '\n' ::
      (generate_readme_fallback brief checks
        (summarize_attachment_meta read (decode_attachments writeOk atts).1) round_num ++
        "\n".data)) ++ [bt, bt])
      = ("markdown".data ++ '\n' ::
          ("# Auto-generated README (Round ".data ++ (Nat.repr round_num).data ++
            ")\n\n**Project brief:** ".data ++ brief ++ "\n\n**Attachments:**\n".data ++
            summarize_attachment_meta read (decode_attachments writeOk atts).1 ++
            "\n\n**Checks to meet:**\n".data ++ joinNL (checks.getD []))) ++
        ("\n\n## Setup\n1. Open `index.html` in a browser.\n2. No build steps required.\n\n## Notes\nThis README was generated as a fallback because the LLM did not return an explicit README.\n".data ++
          "\n".data ++ [bt, bt]) := by
    simp [generate_readme_fallback, List.append_assoc]
  have h3 : containsTriple (("markdown".data ++ '\n' ::
      (generate_readme_fallback brief checks
        (summarize_attachment_meta read (decode_attachments writeOk atts).1) round_num ++
        "\n".data)) ++ [bt, bt]) = false := by
    rw [hregroup, containsTriple_append_nobt _ hX]
    decide
  have happ := generate_app_code_five brief atts checks round_num prev_readme writeOk read
    (.error e) "\n".data "html".data
    ("<html>\n  <head><title>Fallback App</title></head>\n  <body>\n    <h1>Hello (fallback)</h1>\n    <p>This app was generated as a fallback because the Gemini API failed. Brief: ".data ++
      brief ++ "</p>\n  </body>\n</html>\n".data)
    "\n".data "markdown".data
    (generate_readme_fallback brief checks
      (summarize_attachment_meta read (decode_attachments writeOk atts).1) round_num ++
      "\n".data)
    "\n".data hfb hnl2 h1 hnl2 h3 hnl0 (by decide) (by decide)
    (Or.inr fun hnil => by
      rw [List.append_eq_nil] at hnil
      exact absurd hnil.2 (by decide))
    (Or.inr fun hnil => by
      rw [List.append_eq_nil] at hnil
      exact absurd hnil.2 (by decide))
  refine ⟨_, happ, ?_, ?_⟩
  · apply pyStrip_ne_nil (c := '<') ?_ (by decide)
    exact List.mem_append_left _ (List.mem_append_left _ (by decide))
  · apply pyStrip_ne_nil (c := '#') ?_ (by decide)
    apply List.mem_append_left
    simp only [generate_readme_fallback]
    exact List.mem_append_left _ (List.mem_append_left _ (List.mem_append_left _
      (List.mem_append_left _ (List.mem_append_left _ (List.mem_append_left _
        (List.mem_append_left _ (List.mem_append_left _ (by decide))))))))

/-- Claim C1 witness: with a failing external call, a plain brief, no checks and
no attachments, the result exists and both files are non-empty. -/
theorem claim_C1_witness :
    ∃ r, generate_app_code "hello app".data [] none 1 none (fun _ => true) (fun _ => .ok [])
        (.error "API down".data) = some r ∧ r.indexHtml ≠ [] ∧ r.readme ≠ [] :=
  claim_C1_amended "hello app".data [] none 1 none (fun _ => true) (fun _ => .ok [])
    "API down".data (by decide) (by simp) (by decide)

end LlmGen

